import Mathlib

set_option maxRecDepth 100000

/-!
Verification of the SkyBall / Quidditch simulation engine.

The repository holds two parallel implementations of the same game:
a self-contained prototype (game.ts, namespace `Game` below) and the
engine-hosted build (index.ts, namespace `Hytopia` below).  The shared
data model is embedded once; each implementation's functions are
embedded in its own namespace, following the source line by line.

Numeric conventions of the embedding:
* Scalars are `ℚ` (the source uses IEEE doubles; every constant in the
  source is a decimal literal, exactly representable in `ℚ`).
* Every distance *comparison* in the source has the shape
  `Math.hypot(dx,dy,dz) < r` with `r ≥ 0`; it is embedded as the exact
  equivalent squared comparison `dx^2+dy^2+dz^2 < r^2` (`distLt`),
  which avoids square roots while agreeing with the source on every
  input.  Comparisons between two distances (nearest-entity scans) are
  likewise embedded as comparisons of squared distances.
* The only places where the *value* of a square root is used are the
  direction normalisations and the two speed rescales.  There the
  embedding uses `ratSqrt`, the exact rational square root where one
  exists (and 0 otherwise); every theorem below evaluates these spots
  only at inputs whose true length is rational, where the embedding
  agrees with the source exactly.
* `normalize` of index.ts is additionally embedded over `ℝ` with
  `Real.sqrt` (namespace `Hytopia`), since the claim about it concerns
  the zero-length guard itself.
-/

/-- 3-component vector, `{x,y,z}` in both sources. -/
structure Vec3 where
  x : ℚ
  y : ℚ
  z : ℚ
deriving DecidableEq

/-- Ball kinds: quaffle = scoring ball, bludger = hazard ball, snitch = rare ball. -/
inductive BallKind where
  | quaffle
  | bludger
  | snitch
deriving DecidableEq

/-- `Ball` record of game.ts: id, kind, position, velocity, optional owner (player id). -/
structure Ball where
  id : String
  kind : BallKind
  pos : Vec3
  vel : Vec3
  owner : Option String
deriving DecidableEq

/-- `PlayerState` record of game.ts. -/
structure PlayerState where
  id : String
  name : String
  teamId : String
  pos : Vec3
  vel : Vec3
  mounted : Bool
  stamina : ℚ
  stunnedUntil : ℚ
  carrying : Option String
deriving DecidableEq

/-- `Team` record: id, name, color, spawn, score. -/
structure Team where
  id : String
  name : String
  color : String
  spawn : Vec3
  score : ℕ
deriving DecidableEq

/-- `GoalZone`: center, radius, optional team affinity (unused by scoring). -/
structure GoalZone where
  center : Vec3
  radius : ℚ
  teamId : Option String
deriving DecidableEq

/-- Arena bounds: min/max corner. -/
structure Bounds where
  min : Vec3
  max : Vec3
deriving DecidableEq

/-- The world state of game.ts: the module-level `players`, `teams`, `balls`,
`goals`, `bounds` registries.  JS `Map` iteration order is insertion order,
so the `players` map is embedded as a list of records with unique ids. -/
structure GameState where
  players : List PlayerState
  teams : List Team
  balls : List Ball
  goals : List GoalZone
  bounds : Bounds
deriving DecidableEq

/-- The per-tick player intent of game.ts `onPlayerInput`. -/
structure Input where
  move : Vec3
  ascend : Bool
  descend : Bool
  interact : Bool
  beaterSwing : Bool
  throwDir : Option Vec3
deriving DecidableEq

/-- Componentwise squared length, `len(v)^2`. -/
def sqLen (v : Vec3) : ℚ := v.x ^ 2 + v.y ^ 2 + v.z ^ 2

/-- `sub(a,b)` of game.ts (= `subtract` of index.ts). -/
def vsub (a b : Vec3) : Vec3 := ⟨a.x - b.x, a.y - b.y, a.z - b.z⟩

/-- Squared Euclidean distance. -/
def distSq (a b : Vec3) : ℚ := sqLen (vsub a b)

/-- Embeds the source comparison `dist(a,b) < r` (`r ≥ 0`): both sides are
nonnegative, so comparing squares is exactly equivalent. -/
def distLt (a b : Vec3) (r : ℚ) : Prop := distSq a b < r ^ 2

instance (a b : Vec3) (r : ℚ) : Decidable (distLt a b r) := by
  unfold distLt
  exact inferInstance

/-- Exact rational square root where one exists, 0 otherwise.  Stands in for
the IEEE `Math.sqrt`; all theorems below only evaluate it at perfect rational
squares, where it agrees with the source exactly. -/
def ratSqrt (q : ℚ) : ℚ :=
  let n := Nat.sqrt q.num.natAbs
  let d := Nat.sqrt q.den
  if 0 ≤ q.num ∧ n * n = q.num.natAbs ∧ d * d = q.den then (n : ℚ) / (d : ℚ) else 0

namespace Game

/-- `PhysicsCfg` of game.ts. -/
structure PhysicsCfg where
  maxSpeed : ℚ
  accel : ℚ
  lift : ℚ
  gravity : ℚ
  drag : ℚ
  bludgerKnockback : ℚ
  stunMs : ℚ

/-- The `Physics` constants of game.ts (drag 0.08 = 2/25). -/
def Physics : PhysicsCfg := ⟨22, 45, 30, 16, 2 / 25, 28, 800⟩

/-- Scoring award for a quaffle goal. -/
def SCORE_QUAFFLE : ℕ := 10

/-- Capture award for the snitch. -/
def SCORE_SNITCH : ℕ := 150

/-- `len(a)` of game.ts, via `ratSqrt` (see the file header). -/
def len (a : Vec3) : ℚ := ratSqrt (sqLen a)

/-- `norm(a)` of game.ts: `const L = len(a) || 1; return {a.x/L, a.y/L, a.z/L}`. -/
def norm (a : Vec3) : Vec3 :=
  let L := if len a = 0 then 1 else len a
  ⟨a.x / L, a.y / L, a.z / L⟩

/-- `clampVec(a,m)` of game.ts.  The comparison `L > m` is embedded as the
exact squared comparison; the rescale divides by `len a`. -/
def clampVec (a : Vec3) (m : ℚ) : Vec3 :=
  if sqLen a > m ^ 2 then
    let L := len a
    ⟨a.x * m / L, a.y * m / L, a.z * m / L⟩
  else a

/-- `players.get(id)`. -/
def mapGet (ps : List PlayerState) (pid : String) : Option PlayerState :=
  ps.find? (fun p => p.id == pid)

/-- `players.set(id, p)`: replace in place if the key exists, else append
(JS Map insertion-order semantics). -/
def mapSet (ps : List PlayerState) (p : PlayerState) : List PlayerState :=
  if ps.any (fun q => q.id == p.id) then ps.map (fun q => if q.id = p.id then p else q)
  else ps ++ [p]

/-- `players.delete(id)`. -/
def mapDelete (ps : List PlayerState) (pid : String) : List PlayerState :=
  ps.filter (fun p => !(p.id == pid))

/-- In-place field update of the player object with the given id. -/
def updPlayer (ps : List PlayerState) (pid : String) (f : PlayerState → PlayerState) :
    List PlayerState :=
  ps.map (fun p => if p.id = pid then f p else p)

/-- `balls.find(b => b.id === bid)`. -/
def getBall (bs : List Ball) (bid : String) : Option Ball :=
  bs.find? (fun b => b.id == bid)

/-- In-place field update of the ball object with the given id. -/
def updBall (bs : List Ball) (bid : String) (f : Ball → Ball) : List Ball :=
  bs.map (fun b => if b.id = bid then f b else b)

/-- `teamById(id)` of game.ts. -/
def teamById (ts : List Team) (tid : String) : Option Team :=
  ts.find? (fun t => t.id == tid)

/-- In-place field update of the team object with the given id. -/
def updTeam (ts : List Team) (tid : String) (f : Team → Team) : List Team :=
  ts.map (fun t => if t.id = tid then f t else t)

/-- `makeDefaultTeams(b)` of game.ts. -/
def makeDefaultTeams (b : Bounds) : List Team :=
  let cx := (b.min.x + b.max.x) / 2
  let cz := (b.min.z + b.max.z) / 2
  let y := b.min.y + 60
  [⟨"gry", "Gryffindor", "#B31B1B", ⟨cx - 35, y, cz⟩, 0⟩,
   ⟨"sly", "Slytherin", "#2E7D32", ⟨cx + 35, y, cz⟩, 0⟩,
   ⟨"rav", "Ravenclaw", "#0D47A1", ⟨cx, y, cz - 35⟩, 0⟩,
   ⟨"huf", "Hufflepuff", "#FBC02D", ⟨cx, y, cz + 35⟩, 0⟩]

/-- `midAir(b,h)` of game.ts: the configured ball (re)spawn point. -/
def midAir (b : Bounds) (h : ℚ) : Vec3 :=
  ⟨(b.min.x + b.max.x) / 2, b.min.y + 60 + h, (b.min.z + b.max.z) / 2⟩

/-- `integrateBall(b,dt)`: gravity on `vel.y`, componentwise drag, position
integration (in that order, as in the source). -/
def integrateBall (b : Ball) (dt : ℚ) : Ball :=
  let vx := b.vel.x * (1 - Physics.drag)
  let vy := (b.vel.y - Physics.gravity * dt) * (1 - Physics.drag)
  let vz := b.vel.z * (1 - Physics.drag)
  { b with
    vel := ⟨vx, vy, vz⟩
    pos := ⟨b.pos.x + vx * dt, b.pos.y + vy * dt, b.pos.z + vz * dt⟩ }

/-- `nearestPlayer(pos)`: linear scan keeping the strictly closest player so
far (first encountered wins ties); `bd` starts at Infinity, embedded as `⊤`.
Distances are compared via their squares (exactly equivalent). -/
def nearestPlayer (ps : List PlayerState) (pos : Vec3) : Option PlayerState :=
  (ps.foldl
    (fun acc p =>
      if ((distSq pos p.pos : ℚ) : WithTop ℚ) < acc.2 then
        (some p, ((distSq pos p.pos : ℚ) : WithTop ℚ))
      else acc)
    ((none : Option PlayerState), (⊤ : WithTop ℚ))).1

/-- `nearestBallOfKind(pos, kind)` of game.ts. -/
def nearestBallOfKind (bs : List Ball) (pos : Vec3) (k : BallKind) : Option Ball :=
  (bs.foldl
    (fun acc b =>
      if b.kind = k then
        if ((distSq pos b.pos : ℚ) : WithTop ℚ) < acc.2 then
          (some b, ((distSq pos b.pos : ℚ) : WithTop ℚ))
        else acc
      else acc)
    ((none : Option Ball), (⊤ : WithTop ℚ))).1

/-- `bludgerSeek(b,dt)`: add a velocity increment toward the nearest player. -/
def bludgerSeek (ps : List PlayerState) (b : Ball) (dt : ℚ) : Ball :=
  match nearestPlayer ps b.pos with
  | none => b
  | some target =>
    let dir := norm (vsub target.pos b.pos)
    { b with vel := ⟨b.vel.x + dir.x * 12 * dt, b.vel.y + dir.y * 12 * dt,
                     b.vel.z + dir.z * 12 * dt⟩ }

/-- `snitchErratic(b, nowMs, dt)`.  The sinusoids of the source are kept
abstract as the parameters `sinF`/`cosF` (the claims below never depend on
their values). -/
def snitchErratic (sinF cosF : ℚ → ℚ) (b : Ball) (nowMs dt : ℚ) : Ball :=
  let t := nowMs / 1000
  { b with vel := ⟨b.vel.x + sinF (t * 5) * 3 * dt, b.vel.y + cosF (t * 7) * 4 * dt,
                   b.vel.z + sinF (t * 6) * 3 * dt⟩ }

/-- The body of the goal-scoring branch: credit the carrier's team, reset the
carried ball to the respawn point with zero velocity and no owner, clear the
carrying reference.  All of this is guarded by `if (t)` in the source. -/
def scoreGoalAt (s : GameState) (p : PlayerState) (cid : String) : GameState :=
  match teamById s.teams p.teamId with
  | none => s
  | some t =>
    let ts := updTeam s.teams t.id (fun u => { u with score := u.score + SCORE_QUAFFLE })
    let bs := updBall s.balls cid
      (fun b => { b with owner := none, pos := midAir s.bounds 8, vel := ⟨0, 0, 0⟩ })
    let ps := updPlayer s.players p.id (fun q => { q with carrying := none })
    { s with teams := ts, balls := bs, players := ps }

/-- Goal-scoring body of `resolveInteractions` for one player: if the player
carries the quaffle, every goal zone within its radius triggers the scoring
block (the source keeps iterating zones after the first score). -/
def goalPhasePlayer (s : GameState) (pid : String) : GameState :=
  match mapGet s.players pid with
  | none => s
  | some p =>
    match p.carrying with
    | none => s
    | some cid =>
      match getBall s.balls cid with
      | none => s
      | some carried =>
        if carried.kind = BallKind.quaffle then
          s.goals.foldl
            (fun s1 g => if distLt p.pos g.center g.radius then scoreGoalAt s1 p cid else s1) s
        else s

/-- First loop of `resolveInteractions`: goal scoring, over players in
registry order. -/
def goalPhase (s : GameState) : GameState :=
  (s.players.map (fun p => p.id)).foldl goalPhasePlayer s

/-- Bludger-knockback body for one (ball, player) pair.  Note: the source
checks only `b.kind === "bludger"` and the collision distance — there is no
stun check and no owner check on this path. -/
def bludgerHitPlayer (nowMs : ℚ) (s : GameState) (bid pid : String) : GameState :=
  match getBall s.balls bid, mapGet s.players pid with
  | some b, some p =>
    if b.kind = BallKind.bludger then
      if distLt b.pos p.pos (9 / 5) then
        let d := norm (vsub p.pos b.pos)
        let v1 : Vec3 := ⟨p.vel.x + d.x * Physics.bludgerKnockback, p.vel.y + 6,
                          p.vel.z + d.z * Physics.bludgerKnockback⟩
        let ps1 := updPlayer s.players pid
          (fun q => { q with vel := v1, stunnedUntil := nowMs + Physics.stunMs })
        let s1 := { s with players := ps1 }
        match p.carrying with
        | none => s1
        | some cid =>
          let s2 :=
            match getBall s1.balls cid with
            | none => s1
            | some _ =>
              let bs := updBall s1.balls cid
                (fun cb => { cb with owner := none, vel := v1, pos := p.pos })
              { s1 with balls := bs }
          { s2 with players := updPlayer s2.players pid (fun q => { q with carrying := none }) }
      else s
    else s
  | _, _ => s

/-- Second loop of `resolveInteractions`: bludger knockback, over balls then
players in registry order. -/
def bludgerPhase (nowMs : ℚ) (s : GameState) : GameState :=
  (s.balls.map (fun b => b.id)).foldl
    (fun s1 bid =>
      (s1.players.map (fun p => p.id)).foldl
        (fun s2 pid => bludgerHitPlayer nowMs s2 bid pid) s1)
    s

/-- `endRound()` of game.ts: it only broadcasts the final HUD; it mutates no
match state (there is no match-phase variable anywhere in the source). -/
def endRound (s : GameState) : GameState := s

/-- Third block of `resolveInteractions`: snitch capture.  The first player
within radius 1.5 of the snitch (registry order) wins; the scan then stops.
The source does not despawn the snitch, does not mark it owned, and
`endRound` changes no state. -/
def snitchPhase (s : GameState) : GameState :=
  match s.balls.find? (fun b => b.kind == BallKind.snitch) with
  | none => s
  | some sn =>
    match s.players.find? (fun p => decide (distLt sn.pos p.pos (3 / 2))) with
    | none => s
    | some p =>
      match teamById s.teams p.teamId with
      | none => s
      | some t =>
        let ts := updTeam s.teams t.id (fun u => { u with score := u.score + SCORE_SNITCH })
        endRound { s with teams := ts }

/-- `resolveInteractions(nowMs)`: goal scoring, then bludger knockback, then
snitch capture. -/
def resolveInteractions (nowMs : ℚ) (s : GameState) : GameState :=
  snitchPhase (bludgerPhase nowMs (goalPhase s))

/-- `updatePlayerPhysics(p,dt)`: the floor clamp. -/
def updatePlayerPhysics (bounds : Bounds) (p : PlayerState) : PlayerState :=
  let floorY := bounds.min.y + 40
  if p.pos.y < floorY then
    { p with pos := { p.pos with y := floorY }, vel := { p.vel with y := max 0 p.vel.y } }
  else p

/-- `tick(dt, nowMs)`: integrate every unowned ball (owned balls are skipped
entirely by `if (b.owner) continue`), fold in the per-kind steering, resolve
interactions, then apply player floor physics. -/
def tick (sinF cosF : ℚ → ℚ) (dt nowMs : ℚ) (s : GameState) : GameState :=
  let s1 := (s.balls.map (fun b => b.id)).foldl
    (fun s0 bid =>
      match getBall s0.balls bid with
      | none => s0
      | some b =>
        if b.owner.isSome then s0
        else
          let b1 := integrateBall b dt
          let b2 := if b1.kind = BallKind.bludger then bludgerSeek s0.players b1 dt else b1
          let b3 := if b2.kind = BallKind.snitch then snitchErratic sinF cosF b2 nowMs dt else b2
          { s0 with balls := updBall s0.balls bid (fun _ => b3) })
    s
  let s2 := resolveInteractions nowMs s1
  { s2 with players := s2.players.map (updatePlayerPhysics s2.bounds) }

/-- `countTeam`: each team's current player count (the `counts` map of
`autoAssignTeam`). -/
def countTeam (players : List PlayerState) (tid : String) : ℕ :=
  (players.filter (fun p => p.teamId == tid)).length

/-- One iteration of the `autoAssignTeam` loop: keep the strictly smallest
count seen so far (`best` starts at Infinity, embedded as `⊤`). -/
def pickStep (players : List PlayerState) (acc : Option Team × WithTop ℕ) (t : Team) :
    Option Team × WithTop ℕ :=
  if ((countTeam players t.id : ℕ) : WithTop ℕ) < acc.2 then
    (some t, ((countTeam players t.id : ℕ) : WithTop ℕ))
  else acc

/-- `autoAssignTeam()`: the team with the strict minimum count, first team in
list order on ties (`none` only when the team list is empty, where the source
would return `undefined`). -/
def autoAssignTeam (teams : List Team) (players : List PlayerState) : Option Team :=
  (teams.foldl (pickStep players) ((none : Option Team), (⊤ : WithTop ℕ))).1

/-- `onPlayerJoin(id, name)`: assign a team, spawn the player at the team
spawn with zero velocity, full stamina, no stun, carrying nothing. -/
def onPlayerJoin (pid nm : String) (s : GameState) : GameState :=
  match autoAssignTeam s.teams s.players with
  | none => s
  | some team =>
    { s with players := mapSet s.players ⟨pid, nm, team.id, team.spawn, ⟨0, 0, 0⟩, true, 1, 0, none⟩ }

/-- `onPlayerLeave(id)` of game.ts: `players.delete(id); broadcastHUD();` —
note that it does NOT touch any ball's owner field. -/
def onPlayerLeave (pid : String) (s : GameState) : GameState :=
  { s with players := mapDelete s.players pid }

/-- Flight portion of `onPlayerInput`: clamped move acceleration, lift and
descent, horizontal drag, horizontal speed clamp, gravity on `vel.y`,
position integration — in source order.  The speed-clamp comparison is the
exact squared comparison; its rescale uses `ratSqrt`. -/
def flightStep (input : Input) (dt : ℚ) (p : PlayerState) : PlayerState :=
  let mv := clampVec input.move 1
  let vx0 := p.vel.x + mv.x * Physics.accel * dt
  let vz0 := p.vel.z + mv.z * Physics.accel * dt
  let vy0 := if input.ascend then p.vel.y + Physics.lift * dt else p.vel.y
  let vy1 := if input.descend then vy0 - Physics.lift * dt else vy0
  let vx1 := vx0 * (1 - Physics.drag)
  let vz1 := vz0 * (1 - Physics.drag)
  let vx2 := if vx1 ^ 2 + vz1 ^ 2 > Physics.maxSpeed ^ 2 then
      vx1 * (Physics.maxSpeed / ratSqrt (vx1 ^ 2 + vz1 ^ 2)) else vx1
  let vz2 := if vx1 ^ 2 + vz1 ^ 2 > Physics.maxSpeed ^ 2 then
      vz1 * (Physics.maxSpeed / ratSqrt (vx1 ^ 2 + vz1 ^ 2)) else vz1
  let vy2 := vy1 - Physics.gravity * dt
  { p with
    vel := ⟨vx2, vy2, vz2⟩
    pos := ⟨p.pos.x + vx2 * dt, p.pos.y + vy2 * dt, p.pos.z + vz2 * dt⟩ }

/-- Interact portion of `onPlayerInput`: if not carrying, claim the FIRST
unowned quaffle-or-snitch ball within distance 2.0 in registry order
(`balls.find`); if carrying, release it with throw velocity along the aim
(or current-velocity) direction. -/
def interactStep (input : Input) (s : GameState) (pid : String) : GameState :=
  match mapGet s.players pid with
  | none => s
  | some p =>
    match p.carrying with
    | none =>
      match s.balls.find? (fun b =>
          b.owner.isNone && decide (distLt b.pos p.pos 2) &&
          (b.kind == BallKind.quaffle || b.kind == BallKind.snitch)) with
      | none => s
      | some nearby =>
        { s with
          balls := updBall s.balls nearby.id (fun b => { b with owner := some p.id })
          players := updPlayer s.players pid (fun q => { q with carrying := some nearby.id }) }
    | some cid =>
      let s1 :=
        match getBall s.balls cid with
        | none => s
        | some _ =>
          let dir := norm (input.throwDir.getD ⟨p.vel.x, 1 / 5, p.vel.z⟩)
          let bs := updBall s.balls cid
            (fun b => { b with owner := none, vel := ⟨dir.x * 26, dir.y * 26, dir.z * 26⟩,
                               pos := p.pos })
          { s with balls := bs }
      { s1 with players := updPlayer s1.players pid (fun q => { q with carrying := none }) }

/-- Beater-swing portion of `onPlayerInput`: impulse on the nearest bludger
within distance 2.4, directed from the player toward it. -/
def swingStep (s : GameState) (pid : String) : GameState :=
  match mapGet s.players pid with
  | none => s
  | some p =>
    match nearestBallOfKind s.balls p.pos BallKind.bludger with
    | none => s
    | some bl =>
      if distLt bl.pos p.pos (12 / 5) then
        let dir := norm (vsub bl.pos p.pos)
        let bs := updBall s.balls bl.id
          (fun b => { b with vel := ⟨b.vel.x + dir.x * 32, b.vel.y + 6, b.vel.z + dir.z * 32⟩ })
        { s with balls := bs }
      else s

/-- `onPlayerInput(id, input, dt, nowMs)`: unknown player is a no-op; a
stunned player (`nowMs < stunnedUntil`) is a no-op; otherwise flight physics,
then interact, then beater swing, in source order. -/
def onPlayerInput (pid : String) (input : Input) (dt nowMs : ℚ) (s : GameState) : GameState :=
  match mapGet s.players pid with
  | none => s
  | some p =>
    if nowMs < p.stunnedUntil then s
    else
      let p1 := flightStep input dt p
      let s1 := { s with players := updPlayer s.players pid (fun _ => p1) }
      let s2 := if input.interact then interactStep input s1 pid else s1
      if input.beaterSwing then swingStep s2 pid else s2

end Game

namespace Hytopia

/-- `BallEntity.updatePhysics(dt)` of index.ts: a carried ball is snapped to
its owner's position plus a fixed vertical offset of 2 and undergoes no
physics; an unowned ball gets gravity, drag, integration and the floor
bounce at y = 51. -/
def updatePhysics (players : List PlayerState) (b : Ball) (dt : ℚ) : Ball :=
  match b.owner with
  | some pid =>
    match players.find? (fun p => p.id == pid) with
    | some p => { b with pos := ⟨p.pos.x, p.pos.y + 2, p.pos.z⟩ }
    | none => b
  | none =>
    let vy := (b.vel.y - 16 * dt) * (1 - 2 / 25)
    let vx := b.vel.x * (1 - 2 / 25)
    let vz := b.vel.z * (1 - 2 / 25)
    let np : Vec3 := ⟨b.pos.x + vx * dt, b.pos.y + vy * dt, b.pos.z + vz * dt⟩
    if np.y < 51 then
      { b with pos := ⟨np.x, 51, np.z⟩, vel := ⟨vx, |vy| * (1 / 2), vz⟩ }
    else
      { b with pos := np, vel := ⟨vx, vy, vz⟩ }

/-- Real-valued vectors, for the embedding of the `normalize` helper of
index.ts (identical to `norm` of game.ts), whose claim is about the
square-root guard itself. -/
structure Vec3R where
  x : ℝ
  y : ℝ
  z : ℝ

/-- `subtract(a,b)` of index.ts. -/
def subtract (a b : Vec3R) : Vec3R := ⟨a.x - b.x, a.y - b.y, a.z - b.z⟩

/-- `length(v)` of index.ts: `Math.hypot(v.x, v.y, v.z)`. -/
noncomputable def length (v : Vec3R) : ℝ := Real.sqrt (v.x ^ 2 + v.y ^ 2 + v.z ^ 2)

open Classical in
/-- `normalize(v)` of index.ts: `const len = length(v) || 1;` — the divisor
is the length, replaced by 1 when the length is 0. -/
noncomputable def normalize (v : Vec3R) : Vec3R :=
  let l := if length v = 0 then 1 else length v
  ⟨v.x / l, v.y / l, v.z / l⟩

end Hytopia

/-! ### Concrete scenario states used by the theorems below -/

/-- Degenerate arena bounds (a single block at the origin): team spawns are
at y = 60, the floor clamp at y = 40, the ball respawn point at (0, 68, 0). -/
def bounds0 : Bounds := ⟨⟨0, 0, 0⟩, ⟨0, 0, 0⟩⟩

/-- One player standing exactly at the snitch's position; no other balls. -/
def snitchState : GameState :=
  ⟨[⟨"p1", "Alice", "gry", ⟨0, 60, 0⟩, ⟨0, 0, 0⟩, true, 1, 0, none⟩],
   Game.makeDefaultTeams bounds0,
   [⟨"sn1", BallKind.snitch, ⟨0, 60, 0⟩, ⟨0, 0, 0⟩, none⟩],
   [], bounds0⟩

/-- Empty player registry with one unowned quaffle placed at the Gryffindor
spawn point. -/
def joinState0 : GameState :=
  ⟨[], Game.makeDefaultTeams bounds0,
   [⟨"q1", BallKind.quaffle, ⟨-35, 60, 0⟩, ⟨0, 0, 0⟩, none⟩],
   [], bounds0⟩

/-- An intent that only presses interact. -/
def inputPickup : Input := ⟨⟨0, 0, 0⟩, false, false, true, false, none⟩

/-- An intent that presses nothing. -/
def idleInput : Input := ⟨⟨0, 0, 0⟩, false, false, false, false, none⟩

/-- Player p1 joins and picks up the quaffle via an interact intent. -/
def leaveState1 : GameState :=
  Game.onPlayerInput "p1" inputPickup (1 / 60) 0 (Game.onPlayerJoin "p1" "Alice" joinState0)

/-- ... then p1 leaves while carrying the quaffle, and a new player joins
under the same (reused) connection id. -/
def leaveState2 : GameState :=
  Game.onPlayerJoin "p1" "Bob" (Game.onPlayerLeave "p1" leaveState1)

/-- The bidirectional ownership invariant of the spec:
`player.carrying == id(b)` iff `b.owner == id(player)` for every pair. -/
def ownershipSymmetric (s : GameState) : Prop :=
  ∀ p ∈ s.players, ∀ b ∈ s.balls, (p.carrying = some b.id ↔ b.owner = some p.id)

instance (s : GameState) : Decidable (ownershipSymmetric s) := by
  unfold ownershipSymmetric
  exact inferInstance

/-- A currently stunned player (stunned until t = 1000) standing 1 unit away
from an unowned bludger (collision radius 1.8). -/
def stunnedState : GameState :=
  ⟨[⟨"p1", "Alice", "gry", ⟨1, 60, 0⟩, ⟨0, 0, 0⟩, true, 1, 1000, none⟩],
   Game.makeDefaultTeams bounds0,
   [⟨"bl1", BallKind.bludger, ⟨0, 60, 0⟩, ⟨0, 0, 0⟩, none⟩],
   [], bounds0⟩

/-- A lone unstunned hovering player and no balls at all. -/
def flyState : GameState :=
  ⟨[⟨"p1", "Alice", "gry", ⟨0, 60, 0⟩, ⟨0, 0, 0⟩, true, 1, 0, none⟩],
   Game.makeDefaultTeams bounds0, [], [], bounds0⟩

/-- A player at (5,60,5) carrying the quaffle, which sits at (0,60,0). -/
def ownedBallState : GameState :=
  ⟨[⟨"p1", "Alice", "gry", ⟨5, 60, 5⟩, ⟨0, 0, 0⟩, true, 1, 0, some "q1"⟩],
   Game.makeDefaultTeams bounds0,
   [⟨"q1", BallKind.quaffle, ⟨0, 60, 0⟩, ⟨0, 0, 0⟩, some "p1"⟩],
   [], bounds0⟩

/-- Same as `ownedBallState` with the same owner position but the carried
ball picked up at a different spot, (3,60,0). -/
def ownedBallState2 : GameState :=
  ⟨[⟨"p1", "Alice", "gry", ⟨5, 60, 5⟩, ⟨0, 0, 0⟩, true, 1, 0, some "q1"⟩],
   Game.makeDefaultTeams bounds0,
   [⟨"q1", BallKind.quaffle, ⟨3, 60, 0⟩, ⟨0, 0, 0⟩, some "p1"⟩],
   [], bounds0⟩

/-- Two eligible unowned quaffles: the farther one (distance 1.9) comes
first in registry order, the nearer one (distance 0.5) second. -/
def pickState : GameState :=
  ⟨[⟨"p1", "Alice", "gry", ⟨0, 60, 0⟩, ⟨0, 0, 0⟩, true, 1, 0, none⟩],
   Game.makeDefaultTeams bounds0,
   [⟨"far", BallKind.quaffle, ⟨0, 60, 19 / 10⟩, ⟨0, 0, 0⟩, none⟩,
    ⟨"near", BallKind.quaffle, ⟨0, 60, 1 / 2⟩, ⟨0, 0, 0⟩, none⟩],
   [], bounds0⟩

/-- Match start for the auto-assignment fairness property: the four default
teams, no players yet. -/
def initialState (bd : Bounds) : GameState :=
  ⟨[], Game.makeDefaultTeams bd, [], [], bd⟩

/-- N consecutive joins (one per id, in order) with no intervening leaves. -/
def joinAll (s : GameState) (ids : List String) : GameState :=
  ids.foldl (fun s1 i => Game.onPlayerJoin i i s1) s

/-! ### Claim theorems -/

/-- C1: the claim says the rare-ball capture award is granted at most once
and the match transitions to Ended exactly once.  The code disagrees: after
a capture, nothing despawns the snitch, marks it owned, or records a match
phase (`endRound` only broadcasts), so a player who stays within the capture
radius is credited the 150-point award again on the very next resolver pass.
Here one pass awards 150 and a second pass on the resulting state awards 150
more, and `endRound` is the identity on the game state. -/
theorem snitch_capture_award_repeats :
    (Game.teamById (Game.resolveInteractions 0 snitchState).teams "gry").map Team.score
      = some Game.SCORE_SNITCH
  ∧ (Game.teamById (Game.resolveInteractions 0 (Game.resolveInteractions 0 snitchState)).teams
      "gry").map Team.score = some (Game.SCORE_SNITCH + Game.SCORE_SNITCH)
  ∧ Game.endRound (Game.resolveInteractions 0 snitchState)
      = Game.resolveInteractions 0 snitchState := by
  with_unfolding_all decide

/-- C2: the claim says ownership symmetry holds after every operation,
player leave included (the spec: leave releases any carried ball).  In
game.ts `onPlayerLeave` only deletes the player and never clears the carried
ball's `owner` field, so after the carrier leaves and the connection id is
reused by a fresh join, the ball's owner points at a player who carries
nothing: symmetry is broken by the listed operations alone. -/
theorem player_leave_breaks_ownership_symmetry :
    ownershipSymmetric leaveState1
  ∧ (Game.getBall leaveState1.balls "q1").map Ball.owner = some (some "p1")
  ∧ (Game.getBall leaveState2.balls "q1").map Ball.owner = some (some "p1")
  ∧ ¬ ownershipSymmetric leaveState2 := by
  with_unfolding_all decide

/-- C3: the claim says a player with `now < stunnedUntil` receives no
knockback, no new stun window and no forced drop from a hazard collision.
The game.ts bludger loop checks only the ball kind and the collision
distance — there is no stun check — so a player stunned until t = 1000 who
is 1 unit from a bludger at t = 0 still receives the knockback impulse
(28, 6, 0) and has the stun window overwritten to 0 + 800 = 800 (which here
even shortens the stun). -/
theorem bludger_effects_hit_stunned_player :
    (Game.mapGet stunnedState.players "p1").map PlayerState.stunnedUntil = some 1000
  ∧ (Game.mapGet (Game.resolveInteractions 0 stunnedState).players "p1").map PlayerState.vel
      = some ⟨28, 6, 0⟩
  ∧ (Game.mapGet (Game.resolveInteractions 0 stunnedState).players "p1").map
      PlayerState.stunnedUntil = some 800 := by
  with_unfolding_all decide

/-- C5: the claim says gravity is never applied to a player's vertical
velocity.  In game.ts `onPlayerInput` executes `p.vel.y -= Physics.gravity *
dt` on every processed input: an idle input over dt = 1/2 takes a hovering
player's `vel.y` from 0 to `-gravity * (1/2)` = -8.  (The second conjunct
confirms the other half of the claim on this embedding: a tick leaves an
owned ball's velocity untouched, so only unowned balls receive the gravity
decrement.) -/
theorem gravity_applied_to_player_velocity :
    (Game.mapGet (Game.onPlayerInput "p1" idleInput (1 / 2) 0 flyState).players "p1").map
      PlayerState.vel = some ⟨0, -(Game.Physics.gravity * (1 / 2)), 0⟩
  ∧ (Game.getBall (Game.tick (fun _ => 0) (fun _ => 0) (1 / 2) 0 ownedBallState).balls
      "q1").map Ball.vel = some ⟨0, 0, 0⟩ := by
  with_unfolding_all decide

/-- C6: the claim says a carried ball's end-of-tick position is determined
by its owner's position that tick.  In game.ts `tick` skips owned balls
entirely (`if (b.owner) continue`), so a carried ball stays wherever it was
picked up: two states with the owner at the same position but the ball
picked up at different spots end the tick with different ball positions,
refuting the claim.  The last conjunct shows the index.ts implementation
does track the carrier: `updatePhysics` snaps the carried ball to the
owner's position plus (0, 2, 0). -/
theorem carried_ball_position_not_function_of_owner :
    (Game.mapGet ownedBallState.players "p1").map PlayerState.pos
      = (Game.mapGet ownedBallState2.players "p1").map PlayerState.pos
  ∧ (Game.getBall (Game.tick (fun _ => 0) (fun _ => 0) (1 / 60) 0 ownedBallState).balls
      "q1").map Ball.pos = some ⟨0, 60, 0⟩
  ∧ (Game.getBall (Game.tick (fun _ => 0) (fun _ => 0) (1 / 60) 0 ownedBallState2).balls
      "q1").map Ball.pos = some ⟨3, 60, 0⟩
  ∧ Hytopia.updatePhysics ownedBallState.players
      ⟨"q1", BallKind.quaffle, ⟨0, 60, 0⟩, ⟨0, 0, 0⟩, some "p1"⟩ (1 / 60)
      = ⟨"q1", BallKind.quaffle, ⟨5, 62, 5⟩, ⟨0, 0, 0⟩, some "p1"⟩ := by
  with_unfolding_all decide

/-- C4, counterexample: the claim says the nearest eligible ball within the
pickup radius is claimed even when a farther eligible ball precedes it in
registry order.  In `pickState` both quaffles are unowned and within the
pickup radius 2.0 of the player at interact time, the second-listed ball is
strictly nearer, yet the interact claims the first-listed, farther ball
(`balls.find` takes the first match in registry order). -/
theorem pickup_prefers_registry_order_not_nearest :
    distLt ⟨0, 60 - 1 / 225, 0⟩ ⟨0, 60, 19 / 10⟩ 2
  ∧ distLt ⟨0, 60 - 1 / 225, 0⟩ ⟨0, 60, 1 / 2⟩ 2
  ∧ distSq ⟨0, 60 - 1 / 225, 0⟩ ⟨0, 60, 1 / 2⟩ < distSq ⟨0, 60 - 1 / 225, 0⟩ ⟨0, 60, 19 / 10⟩
  ∧ (Game.mapGet (Game.onPlayerInput "p1" inputPickup (1 / 60) 0 pickState).players "p1").map
      PlayerState.carrying = some (some "far")
  ∧ (Game.getBall (Game.onPlayerInput "p1" inputPickup (1 / 60) 0 pickState).balls "far").map
      Ball.owner = some (some "p1") := by
  with_unfolding_all decide

/-- C9: any input delivered while `now < stunnedUntil` is ignored entirely —
`onPlayerInput` returns with the whole game state (position, velocity,
carrying, and every ball) unchanged. -/
theorem stunned_input_is_ignored (s : GameState) (pid : String) (input : Input)
    (dt nowMs : ℚ) (p : PlayerState) (hp : Game.mapGet s.players pid = some p)
    (hstun : nowMs < p.stunnedUntil) :
    Game.onPlayerInput pid input dt nowMs s = s := by
  unfold Game.onPlayerInput
  rw [hp]
  simp [hstun]

/-- Witness for C9 at a concrete stunned state. -/
theorem stunned_input_is_ignored_witness :
    Game.onPlayerInput "p1" idleInput 1 0 stunnedState = stunnedState :=
  stunned_input_is_ignored stunnedState "p1" idleInput 1 0
    ⟨"p1", "Alice", "gry", ⟨1, 60, 0⟩, ⟨0, 0, 0⟩, true, 1, 1000, none⟩ (by with_unfolding_all decide) (by with_unfolding_all decide)

/-- C10: `normalize` is total and never divides by zero: the divisor is the
length guarded to 1 when the length is 0, so it is never 0; the zero vector
maps to the zero vector; and the knockback/steering direction computed when
two positions coincide exactly (`normalize(subtract a a)`) is the zero
vector rather than a division by zero. -/
theorem normalize_total_zero_safe :
    (∀ v : Hytopia.Vec3R, (if Hytopia.length v = 0 then (1 : ℝ) else Hytopia.length v) ≠ 0)
  ∧ Hytopia.normalize ⟨0, 0, 0⟩ = ⟨0, 0, 0⟩
  ∧ (∀ a : Hytopia.Vec3R, Hytopia.normalize (Hytopia.subtract a a) = ⟨0, 0, 0⟩) := by
  have h0 : Hytopia.normalize ⟨0, 0, 0⟩ = ⟨0, 0, 0⟩ := by
    simp [Hytopia.normalize, Hytopia.length]
  refine ⟨?_, h0, ?_⟩
  · intro v
    by_cases h : Hytopia.length v = 0
    · simp [h]
    · simp [h]
  · intro a
    have hsub : Hytopia.subtract a a = ⟨0, 0, 0⟩ := by
      simp [Hytopia.subtract]
    rw [hsub, h0]

/-- C7: goal scoring postcondition.  For every player carrying the scoring
ball within one goal zone's radius, one resolver pass credits the player's
team with the fixed quaffle award, releases the ball owner-less at the
configured respawn point `midAir bounds 8` with exactly zero velocity, and
clears the player's carrying reference.  (Stated on a registry with this
player, this ball and this zone; the spec itself flags overlapping zones as
a separate known multi-award edge case.) -/
theorem quaffle_goal_scoring_postcondition
    (bd : Bounds) (t : Team) (p : PlayerState) (b : Ball) (g : GoalZone) (nowMs : ℚ)
    (hteam : p.teamId = t.id) (hcarry : p.carrying = some b.id)
    (hkind : b.kind = BallKind.quaffle) (hdist : distLt p.pos g.center g.radius) :
    Game.resolveInteractions nowMs ⟨[p], [t], [b], [g], bd⟩ =
      ⟨[{ p with carrying := none }], [{ t with score := t.score + Game.SCORE_QUAFFLE }],
       [{ b with owner := none, pos := Game.midAir bd 8, vel := ⟨0, 0, 0⟩ }], [g], bd⟩ := by
  unfold Game.resolveInteractions Game.goalPhase Game.goalPhasePlayer Game.scoreGoalAt
    Game.bludgerPhase Game.bludgerHitPlayer Game.snitchPhase Game.mapGet Game.getBall
    Game.teamById Game.updTeam Game.updBall Game.updPlayer Game.endRound
  simp [hcarry, hkind, hteam, hdist, List.find?, List.foldl]

/-- Witness for C7: a concrete carrier scoring in a concrete zone. -/
theorem quaffle_goal_scoring_postcondition_witness :
    Game.resolveInteractions 0
      ⟨[⟨"p1", "Alice", "gry", ⟨0, 60, 0⟩, ⟨0, 0, 0⟩, true, 1, 0, some "q1"⟩],
       [⟨"gry", "Gryffindor", "#B31B1B", ⟨-35, 60, 0⟩, 0⟩],
       [⟨"q1", BallKind.quaffle, ⟨0, 62, 0⟩, ⟨1, 1, 1⟩, some "p1"⟩],
       [⟨⟨0, 60, 1⟩, 11 / 5, none⟩], bounds0⟩ =
      ⟨[⟨"p1", "Alice", "gry", ⟨0, 60, 0⟩, ⟨0, 0, 0⟩, true, 1, 0, none⟩],
       [⟨"gry", "Gryffindor", "#B31B1B", ⟨-35, 60, 0⟩, 0 + Game.SCORE_QUAFFLE⟩],
       [⟨"q1", BallKind.quaffle, Game.midAir bounds0 8, ⟨0, 0, 0⟩, none⟩],
       [⟨⟨0, 60, 1⟩, 11 / 5, none⟩], bounds0⟩ :=
  quaffle_goal_scoring_postcondition bounds0
    ⟨"gry", "Gryffindor", "#B31B1B", ⟨-35, 60, 0⟩, 0⟩
    ⟨"p1", "Alice", "gry", ⟨0, 60, 0⟩, ⟨0, 0, 0⟩, true, 1, 0, some "q1"⟩
    ⟨"q1", BallKind.quaffle, ⟨0, 62, 0⟩, ⟨1, 1, 1⟩, some "p1"⟩
    ⟨⟨0, 60, 1⟩, 11 / 5, none⟩ 0 rfl rfl rfl (by with_unfolding_all decide)

/-- Helper: `List.find?` returns the element at index `k` when it satisfies
the predicate and everything earlier does not. -/
theorem find_eq_of_first {α : Type} (pr : α → Bool) :
    ∀ (l : List α) (k : ℕ) (b : α), l.get? k = some b → pr b = true →
      (∀ j, j < k → ∀ a, l.get? j = some a → pr a = false) → l.find? pr = some b := by
  intro l
  induction l with
  | nil => intro k b hk; simp at hk
  | cons x xs ih =>
    intro k b hk hb hearlier
    cases k with
    | zero =>
      simp only [List.get?] at hk
      cases hk
      simp [List.find?_cons, hb]
    | succ k =>
      have hx : pr x = false := hearlier 0 (Nat.succ_pos k) x rfl
      rw [List.find?_cons, hx]
      exact ih k b (by simpa using hk) hb
        (fun j hj a ha => hearlier (j + 1) (by omega) a (by simpa using ha))

/-- Helper: looking up the updated player after an id-preserving in-place
update. -/
theorem mapGet_updPlayer (ps : List PlayerState) (pid : String)
    (f : PlayerState → PlayerState) (hf : ∀ q, (f q).id = q.id) :
    Game.mapGet (Game.updPlayer ps pid f) pid = (Game.mapGet ps pid).map f := by
  induction ps with
  | nil => rfl
  | cons q qs ih =>
    by_cases h : q.id = pid
    · simp [Game.mapGet, Game.updPlayer, List.find?_cons, h, hf]
    · simp only [Game.mapGet, Game.updPlayer, List.map_cons, List.find?_cons, if_neg h] at ih ⊢
      rw [show (q.id == pid) = false by simpa using h]
      exact ih

/-- Helper: looking up the updated ball after an id-preserving in-place
update. -/
theorem getBall_updBall (bs : List Ball) (bid : String)
    (f : Ball → Ball) (hf : ∀ b, (f b).id = b.id) :
    Game.getBall (Game.updBall bs bid f) bid = (Game.getBall bs bid).map f := by
  induction bs with
  | nil => rfl
  | cons b rest ih =>
    by_cases h : b.id = bid
    · simp [Game.getBall, Game.updBall, List.find?_cons, h, hf]
    · simp only [Game.getBall, Game.updBall, List.map_cons, List.find?_cons, if_neg h] at ih ⊢
      rw [show (b.id == bid) = false by simpa using h]
      exact ih

/-- Helper: a membership with a unique id is what `getBall` returns. -/
theorem getBall_of_mem (bs : List Ball) (b : Ball) (hmem : b ∈ bs)
    (huniq : ∀ c ∈ bs, c.id = b.id → c = b) : Game.getBall bs b.id = some b := by
  induction bs with
  | nil => cases hmem
  | cons c rest ih =>
    by_cases h : c.id = b.id
    · have hcb : c = b := huniq c (List.mem_cons_self c rest) h
      subst hcb
      simp [Game.getBall, List.find?_cons]
    · have hb : b ∈ rest := by
        rcases List.mem_cons.mp hmem with h1 | h1
        · exact absurd (h1 ▸ rfl) h
        · exact h1
      simp only [Game.getBall, List.find?_cons] at ih ⊢
      rw [show (c.id == b.id) = false by simpa using h]
      exact ih hb (fun d hd => huniq d (List.mem_cons_of_mem c hd))

/-- C4, amended: when a non-carrying, unstunned player interacts, the ball
claimed is the FIRST unowned quaffle-or-snitch ball in registry iteration
order within the fixed pickup radius 2.0 — not the nearest one.  Claiming
establishes the bidirectional ownership link. -/
theorem pickup_claims_first_eligible_in_registry_order
    (s : GameState) (pid : String) (p : PlayerState) (input : Input) (k : ℕ) (b : Ball)
    (hp : Game.mapGet s.players pid = some p)
    (hc : p.carrying = none)
    (hk : s.balls.get? k = some b)
    (hown : b.owner = none) (hdist : distLt b.pos p.pos 2)
    (hkind : b.kind = BallKind.quaffle ∨ b.kind = BallKind.snitch)
    (hearlier : ∀ j, j < k → ∀ c, s.balls.get? j = some c →
      ¬(c.owner = none ∧ distLt c.pos p.pos 2 ∧
        (c.kind = BallKind.quaffle ∨ c.kind = BallKind.snitch)))
    (huniq : ∀ c ∈ s.balls, c.id = b.id → c = b) :
    Game.mapGet (Game.interactStep input s pid).players pid
        = some { p with carrying := some b.id }
  ∧ Game.getBall (Game.interactStep input s pid).balls b.id
        = some { b with owner := some p.id } := by
  have hfind : s.balls.find? (fun c =>
      c.owner.isNone && decide (distLt c.pos p.pos 2) &&
      (c.kind == BallKind.quaffle || c.kind == BallKind.snitch)) = some b := by
    apply find_eq_of_first _ s.balls k b hk
    · rcases hkind with h | h <;> simp [hown, hdist, h]
    · intro j hj c hcj
      have hnot := hearlier j hj c hcj
      rw [Bool.eq_false_iff]
      intro htrue
      simp only [Bool.and_eq_true, Bool.or_eq_true, beq_iff_eq, decide_eq_true_eq,
        Option.isNone_iff_eq_none] at htrue
      exact hnot ⟨htrue.1.1, htrue.1.2, htrue.2⟩
  simp only [Game.interactStep, hp, hc, hfind]
  refine ⟨?_, ?_⟩
  · rw [mapGet_updPlayer s.players pid
      (fun q => { q with carrying := some b.id }) (fun q => rfl), hp]
    rfl
  · rw [getBall_updBall s.balls b.id
      (fun c => { c with owner := some p.id }) (fun c => rfl),
      getBall_of_mem s.balls b (List.get?_mem hk) huniq]
    rfl

/-- Witness for C4's amended claim at a concrete two-ball registry. -/
theorem pickup_claims_first_eligible_witness :
    Game.mapGet (Game.interactStep inputPickup pickState "p1").players "p1"
      = some ⟨"p1", "Alice", "gry", ⟨0, 60, 0⟩, ⟨0, 0, 0⟩, true, 1, 0, some "far"⟩
  ∧ Game.getBall (Game.interactStep inputPickup pickState "p1").balls "far"
      = some ⟨"far", BallKind.quaffle, ⟨0, 60, 19 / 10⟩, ⟨0, 0, 0⟩, some "p1"⟩ :=
  pickup_claims_first_eligible_in_registry_order pickState "p1"
    ⟨"p1", "Alice", "gry", ⟨0, 60, 0⟩, ⟨0, 0, 0⟩, true, 1, 0, none⟩ inputPickup 0
    ⟨"far", BallKind.quaffle, ⟨0, 60, 19 / 10⟩, ⟨0, 0, 0⟩, none⟩
    rfl rfl rfl rfl (by with_unfolding_all decide) (Or.inl rfl)
    (fun j hj => absurd hj (Nat.not_lt_zero j))
    (by with_unfolding_all decide)

/-- Helper: the `autoAssignTeam` loop started from a candidate `t0` returns
the first team attaining the minimum count of `t0 :: l`: every team listed
before the result has a strictly greater count, every team after it has a
greater-or-equal count. -/
theorem pickStep_loop (players : List PlayerState) :
    ∀ (l : List Team) (t0 : Team),
      ∃ t : Team,
        (l.foldl (Game.pickStep players)
            (some t0, ((Game.countTeam players t0.id : ℕ) : WithTop ℕ))).1 = some t ∧
        ∃ l1 l2, t0 :: l = l1 ++ t :: l2 ∧
          (∀ u ∈ l1, Game.countTeam players t.id < Game.countTeam players u.id) ∧
          (∀ u ∈ l2, Game.countTeam players t.id ≤ Game.countTeam players u.id) := by
  intro l
  induction l with
  | nil =>
    intro t0
    exact ⟨t0, rfl, [], [], rfl, by simp, by simp⟩
  | cons a l ih =>
    intro t0
    by_cases h : Game.countTeam players a.id < Game.countTeam players t0.id
    · have hstep : Game.pickStep players
          (some t0, ((Game.countTeam players t0.id : ℕ) : WithTop ℕ)) a
          = (some a, ((Game.countTeam players a.id : ℕ) : WithTop ℕ)) := by
        simp [Game.pickStep, WithTop.coe_lt_coe, h]
      obtain ⟨t, hfold, l1, l2, hsplit, hl1, hl2⟩ := ih a
      have hta : Game.countTeam players t.id ≤ Game.countTeam players a.id := by
        cases l1 with
        | nil =>
          rw [List.nil_append] at hsplit
          injection hsplit with h1 h2
          rw [← h1]
        | cons x l1x =>
          rw [List.cons_append] at hsplit
          injection hsplit with h1 h2
          exact le_of_lt (hl1 a (h1 ▸ List.mem_cons_self x l1x))
      refine ⟨t, ?_, t0 :: l1, l2, ?_, ?_, hl2⟩
      · rw [List.foldl_cons, hstep]; exact hfold
      · rw [List.cons_append, ← hsplit]
      · intro u hu
        rcases List.mem_cons.mp hu with rfl | hu2
        · exact lt_of_le_of_lt hta h
        · exact hl1 u hu2
    · have hstep : Game.pickStep players
          (some t0, ((Game.countTeam players t0.id : ℕ) : WithTop ℕ)) a
          = (some t0, ((Game.countTeam players t0.id : ℕ) : WithTop ℕ)) := by
        simp [Game.pickStep, WithTop.coe_lt_coe, h]
      obtain ⟨t, hfold, l1, l2, hsplit, hl1, hl2⟩ := ih t0
      cases l1 with
      | nil =>
        rw [List.nil_append] at hsplit
        injection hsplit with h1 h2
        refine ⟨t, ?_, [], a :: l2, ?_, by simp, ?_⟩
        · rw [List.foldl_cons, hstep]; exact hfold
        · rw [List.nil_append, ← h1, h2]
        · intro u hu
          rcases List.mem_cons.mp hu with rfl | hu2
          · rw [← h1]; exact le_of_not_lt h
          · exact hl2 u hu2
      | cons x l1x =>
        rw [List.cons_append] at hsplit
        injection hsplit with h1 h2
        have ht0 : Game.countTeam players t.id < Game.countTeam players t0.id :=
          hl1 t0 (h1 ▸ List.mem_cons_self x l1x)
        refine ⟨t, ?_, t0 :: a :: l1x, l2, ?_, ?_, hl2⟩
        · rw [List.foldl_cons, hstep]; exact hfold
        · simp only [List.cons_append]
          rw [h2, h1]
        · intro u hu
          rcases List.mem_cons.mp hu with rfl | hu2
          · exact ht0
          rcases List.mem_cons.mp hu2 with rfl | hu3
          · exact lt_of_lt_of_le ht0 (le_of_not_lt h)
          · exact hl1 u (List.mem_cons_of_mem x hu3)

/-- Helper: on a nonempty team list the loop starts with the head team as
candidate (its count always beats the Infinity sentinel). -/
theorem autoAssign_cons (players : List PlayerState) (t0 : Team) (rest : List Team) :
    Game.autoAssignTeam (t0 :: rest) players
      = (rest.foldl (Game.pickStep players)
          (some t0, ((Game.countTeam players t0.id : ℕ) : WithTop ℕ))).1 := by
  unfold Game.autoAssignTeam
  rw [List.foldl_cons]
  have hfirst : Game.pickStep players ((none : Option Team), (⊤ : WithTop ℕ)) t0
      = (some t0, ((Game.countTeam players t0.id : ℕ) : WithTop ℕ)) := by
    simp [Game.pickStep]
  rw [hfirst]

/-- Helper: on a four-team list the first team is picked when no later team
has a strictly smaller count. -/
theorem autoAssign_pick0 (players : List PlayerState) (t0 t1 t2 t3 : Team)
    (h1 : ¬ Game.countTeam players t1.id < Game.countTeam players t0.id)
    (h2 : ¬ Game.countTeam players t2.id < Game.countTeam players t0.id)
    (h3 : ¬ Game.countTeam players t3.id < Game.countTeam players t0.id) :
    Game.autoAssignTeam [t0, t1, t2, t3] players = some t0 := by
  unfold Game.autoAssignTeam
  simp [List.foldl, Game.pickStep, h1, h2, h3]

/-- Helper: the second team is picked when its count strictly undercuts the
first and no later team undercuts it. -/
theorem autoAssign_pick1 (players : List PlayerState) (t0 t1 t2 t3 : Team)
    (h1 : Game.countTeam players t1.id < Game.countTeam players t0.id)
    (h2 : ¬ Game.countTeam players t2.id < Game.countTeam players t1.id)
    (h3 : ¬ Game.countTeam players t3.id < Game.countTeam players t1.id) :
    Game.autoAssignTeam [t0, t1, t2, t3] players = some t1 := by
  unfold Game.autoAssignTeam
  simp [List.foldl, Game.pickStep, h1, h2, h3]

/-- Helper: the third team is picked in the corresponding strict-min case. -/
theorem autoAssign_pick2 (players : List PlayerState) (t0 t1 t2 t3 : Team)
    (h1 : ¬ Game.countTeam players t1.id < Game.countTeam players t0.id)
    (h2 : Game.countTeam players t2.id < Game.countTeam players t0.id)
    (h3 : ¬ Game.countTeam players t3.id < Game.countTeam players t2.id) :
    Game.autoAssignTeam [t0, t1, t2, t3] players = some t2 := by
  unfold Game.autoAssignTeam
  simp [List.foldl, Game.pickStep, h1, h2, h3]

/-- Helper: the fourth team is picked in the corresponding strict-min case. -/
theorem autoAssign_pick3 (players : List PlayerState) (t0 t1 t2 t3 : Team)
    (h1 : ¬ Game.countTeam players t1.id < Game.countTeam players t0.id)
    (h2 : ¬ Game.countTeam players t2.id < Game.countTeam players t0.id)
    (h3 : Game.countTeam players t3.id < Game.countTeam players t0.id) :
    Game.autoAssignTeam [t0, t1, t2, t3] players = some t3 := by
  unfold Game.autoAssignTeam
  simp [List.foldl, Game.pickStep, h1, h2, h3]

/-- Helper: appending one player bumps exactly that player's team count. -/
theorem countTeam_append (ps : List PlayerState) (p : PlayerState) (tid : String) :
    Game.countTeam (ps ++ [p]) tid
      = Game.countTeam ps tid + (if p.teamId = tid then 1 else 0) := by
  by_cases h : p.teamId = tid <;>
    simp [Game.countTeam, List.filter_append, h]

/-- Helper: `Map.set` with a fresh key appends. -/
theorem mapSet_fresh (ps : List PlayerState) (p : PlayerState)
    (h : ∀ q ∈ ps, q.id ≠ p.id) : Game.mapSet ps p = ps ++ [p] := by
  unfold Game.mapSet
  rw [if_neg]
  intro hcon
  simp only [List.any_eq_true, beq_iff_eq] at hcon
  obtain ⟨q, hq, he⟩ := hcon
  exact h q hq he

/-- Helper: the default team list with its spawn points abstracted. -/
theorem makeDefaultTeams_eq (bd : Bounds) :
    ∃ v0 v1 v2 v3 : Vec3, Game.makeDefaultTeams bd =
      [⟨"gry", "Gryffindor", "#B31B1B", v0, 0⟩, ⟨"sly", "Slytherin", "#2E7D32", v1, 0⟩,
       ⟨"rav", "Ravenclaw", "#0D47A1", v2, 0⟩, ⟨"huf", "Hufflepuff", "#FBC02D", v3, 0⟩] :=
  ⟨_, _, _, _, rfl⟩

/-- Helper: a join with a fresh id appends the assigned player record. -/
theorem onPlayerJoin_fresh (s : GameState) (a tid nm co : String) (v : Vec3)
    (hpick : Game.autoAssignTeam s.teams s.players = some ⟨tid, nm, co, v, 0⟩)
    (hfresh : ∀ q ∈ s.players, q.id ≠ a) :
    Game.onPlayerJoin a a s
      = { s with players := s.players ++ [⟨a, a, tid, v, ⟨0, 0, 0⟩, true, 1, 0, none⟩] } := by
  simp only [Game.onPlayerJoin, hpick]
  rw [mapSet_fresh s.players _ (fun q hq => hfresh q hq)]

/-- Helper: after N fresh joins from the empty default-team state the four
team counts follow the round-robin formula: the i-th configured team (from
0) holds exactly `(N + 3 - i) / 4` players. -/
theorem joinAll_counts (bd : Bounds) :
    ∀ ids : List String, ids.Nodup →
      (joinAll (initialState bd) ids).teams = Game.makeDefaultTeams bd
    ∧ (joinAll (initialState bd) ids).players.map PlayerState.id = ids
    ∧ Game.countTeam (joinAll (initialState bd) ids).players "gry" = (ids.length + 3) / 4
    ∧ Game.countTeam (joinAll (initialState bd) ids).players "sly" = (ids.length + 2) / 4
    ∧ Game.countTeam (joinAll (initialState bd) ids).players "rav" = (ids.length + 1) / 4
    ∧ Game.countTeam (joinAll (initialState bd) ids).players "huf" = ids.length / 4 := by
  intro ids
  induction ids using List.reverseRecOn with
  | nil =>
    intro _
    refine ⟨rfl, rfl, ?_, ?_, ?_, ?_⟩ <;> rfl
  | append_singleton l a ih =>
    intro hnd
    have hl : l.Nodup := hnd.of_append_left
    have ha : a ∉ l := by
      have hd := List.disjoint_of_nodup_append hnd
      intro hmem
      exact hd hmem (List.mem_singleton.mpr rfl)
    obtain ⟨ht, hids, hg, hs2, hr, hh⟩ := ih hl
    have hfold : joinAll (initialState bd) (l ++ [a])
        = Game.onPlayerJoin a a (joinAll (initialState bd) l) := by
      simp [joinAll, List.foldl_append]
    obtain ⟨v0, v1, v2, v3, hteams⟩ := makeDefaultTeams_eq bd
    set s := joinAll (initialState bd) l with hsdef
    have hfresh : ∀ q ∈ s.players, q.id ≠ a := by
      intro q hq heq
      apply ha
      rw [← hids, ← heq]
      exact List.mem_map_of_mem PlayerState.id hq
    rw [hfold]
    have hmod : l.length % 4 = 0 ∨ l.length % 4 = 1 ∨ l.length % 4 = 2 ∨ l.length % 4 = 3 := by
      omega
    rcases hmod with hm | hm | hm | hm
    · have hpick : Game.autoAssignTeam s.teams s.players
          = some ⟨"gry", "Gryffindor", "#B31B1B", v0, 0⟩ := by
        rw [ht, hteams]
        exact autoAssign_pick0 s.players _ _ _ _
          (by dsimp only; rw [hs2, hg]; omega)
          (by dsimp only; rw [hr, hg]; omega)
          (by dsimp only; rw [hh, hg]; omega)
      rw [onPlayerJoin_fresh s a "gry" "Gryffindor" "#B31B1B" v0 hpick hfresh]
      refine ⟨ht, ?_, ?_, ?_, ?_, ?_⟩
      · simp [hids]
      · rw [countTeam_append, hg]; simp; omega
      · rw [countTeam_append, hs2]; simp; omega
      · rw [countTeam_append, hr]; simp; omega
      · rw [countTeam_append, hh]; simp; omega
    · have hpick : Game.autoAssignTeam s.teams s.players
          = some ⟨"sly", "Slytherin", "#2E7D32", v1, 0⟩ := by
        rw [ht, hteams]
        exact autoAssign_pick1 s.players _ _ _ _
          (by dsimp only; rw [hs2, hg]; omega)
          (by dsimp only; rw [hr, hs2]; omega)
          (by dsimp only; rw [hh, hs2]; omega)
      rw [onPlayerJoin_fresh s a "sly" "Slytherin" "#2E7D32" v1 hpick hfresh]
      refine ⟨ht, ?_, ?_, ?_, ?_, ?_⟩
      · simp [hids]
      · rw [countTeam_append, hg]; simp; omega
      · rw [countTeam_append, hs2]; simp; omega
      · rw [countTeam_append, hr]; simp; omega
      · rw [countTeam_append, hh]; simp; omega
    · have hpick : Game.autoAssignTeam s.teams s.players
          = some ⟨"rav", "Ravenclaw", "#0D47A1", v2, 0⟩ := by
        rw [ht, hteams]
        exact autoAssign_pick2 s.players _ _ _ _
          (by dsimp only; rw [hs2, hg]; omega)
          (by dsimp only; rw [hr, hg]; omega)
          (by dsimp only; rw [hh, hr]; omega)
      rw [onPlayerJoin_fresh s a "rav" "Ravenclaw" "#0D47A1" v2 hpick hfresh]
      refine ⟨ht, ?_, ?_, ?_, ?_, ?_⟩
      · simp [hids]
      · rw [countTeam_append, hg]; simp; omega
      · rw [countTeam_append, hs2]; simp; omega
      · rw [countTeam_append, hr]; simp; omega
      · rw [countTeam_append, hh]; simp; omega
    · have hpick : Game.autoAssignTeam s.teams s.players
          = some ⟨"huf", "Hufflepuff", "#FBC02D", v3, 0⟩ := by
        rw [ht, hteams]
        exact autoAssign_pick3 s.players _ _ _ _
          (by dsimp only; rw [hs2, hg]; omega)
          (by dsimp only; rw [hr, hg]; omega)
          (by dsimp only; rw [hh, hg]; omega)
      rw [onPlayerJoin_fresh s a "huf" "Hufflepuff" "#FBC02D" v3 hpick hfresh]
      refine ⟨ht, ?_, ?_, ?_, ?_, ?_⟩
      · simp [hids]
      · rw [countTeam_append, hg]; simp; omega
      · rw [countTeam_append, hs2]; simp; omega
      · rw [countTeam_append, hr]; simp; omega
      · rw [countTeam_append, hh]; simp; omega

/-- C8: team auto-assignment picks the team with the strict minimum current
player count, ties broken by the first team in the configured team list
(every team listed before the pick has a strictly greater count, every team
after it a greater-or-equal count); consequently, after any sequence of
distinct-id joins from the all-zero default-team state with no intervening
leaves, no team's player count exceeds `ceil(N / 4) = (N + 3) / 4`. -/
theorem auto_assign_strict_min_and_fairness :
    (∀ (players : List PlayerState) (t0 : Team) (rest : List Team),
      ∃ t : Team, Game.autoAssignTeam (t0 :: rest) players = some t ∧
        ∃ l1 l2, t0 :: rest = l1 ++ t :: l2 ∧
          (∀ u ∈ l1, Game.countTeam players t.id < Game.countTeam players u.id) ∧
          (∀ u ∈ l2, Game.countTeam players t.id ≤ Game.countTeam players u.id))
  ∧ (∀ (bd : Bounds) (ids : List String), ids.Nodup →
      ∀ t ∈ Game.makeDefaultTeams bd,
        Game.countTeam (joinAll (initialState bd) ids).players t.id
          ≤ (ids.length + 3) / 4) := by
  constructor
  · intro players t0 rest
    obtain ⟨t, hfold, l1, l2, hsplit, hl1, hl2⟩ := pickStep_loop players rest t0
    exact ⟨t, by rw [autoAssign_cons]; exact hfold, l1, l2, hsplit, hl1, hl2⟩
  · intro bd ids hnd t hmem
    obtain ⟨ht, hids, hg, hs2, hr, hh⟩ := joinAll_counts bd ids hnd
    obtain ⟨v0, v1, v2, v3, hteams⟩ := makeDefaultTeams_eq bd
    rw [hteams] at hmem
    simp only [List.mem_cons, List.not_mem_nil, or_false] at hmem
    rcases hmem with rfl | rfl | rfl | rfl
    · rw [show Game.countTeam (joinAll (initialState bd) ids).players "gry"
          = (ids.length + 3) / 4 from hg]
    · rw [show Game.countTeam (joinAll (initialState bd) ids).players "sly"
          = (ids.length + 2) / 4 from hs2]
      omega
    · rw [show Game.countTeam (joinAll (initialState bd) ids).players "rav"
          = (ids.length + 1) / 4 from hr]
      omega
    · rw [show Game.countTeam (joinAll (initialState bd) ids).players "huf"
          = ids.length / 4 from hh]
      omega

/-- Witness for C8 at five concrete joins: the most-loaded team holds
2 = ceil(5/4) players. -/
theorem auto_assign_strict_min_and_fairness_witness :
    Game.countTeam (joinAll (initialState bounds0) ["a", "b", "c", "d", "e"]).players "gry"
      ≤ (5 + 3) / 4 := by
  have h := auto_assign_strict_min_and_fairness.2 bounds0 ["a", "b", "c", "d", "e"]
    (by with_unfolding_all decide)
    ⟨"gry", "Gryffindor", "#B31B1B", ⟨-35, 60, 0⟩, 0⟩
    (by with_unfolding_all decide)
  exact h
